import Mathlib

/-!
Verification of the emitter core of `typescript-type-def` (`src/emit.rs`).

The emitter is embedded shallowly as a pure function from the type-graph IR
to the *trace of sink write calls* (a `List String`, one entry per
`write!`/`writeln!` invocation in the Rust source).  The I/O layer —
an `io::Write` sink that may fail on any given call — is modelled by
`runWrites`, which consumes such a trace against an oracle saying which
write call fails and with which error; the `?` early-return of the Rust
code corresponds to `runWrites` stopping at the first failing call.
The final text on the sink is the concatenation of the successfully run
trace entries.
-/

namespace TsDef

/-- Modelled from the spec: the type-graph IR of `type_expr.rs`, which is not
part of the provided sources (only `emit.rs` is).  Shapes follow spec §3 and
the destructuring patterns in `emit.rs`.  `Ident` is a validated identifier,
a wrapper around a string. -/
structure Ident where
  name : String
deriving DecidableEq, Repr

/-- Modelled from the spec: documentation text attached to a node
(`Docs(pub &'static str)` in `type_expr.rs`). -/
structure Docs where
  docs : String
deriving DecidableEq, Repr

/-- Modelled from the spec: a string-literal type (`TypeString`), carrying
optional docs and the literal value. -/
structure TypeString where
  docs : Option Docs
  value : String
deriving DecidableEq, Repr

mutual

/-- Modelled from the spec: the `TypeExpr` tagged union of `type_expr.rs`
(spec §3): Ref, Name, String, Tuple, Object, Array, Union, Intersection. -/
inductive TypeExpr where
  | Ref (info : TypeInfo)
  | Name (n : TypeName)
  | String (s : TypeString)
  | Tuple (t : TypeTuple)
  | Object (o : TypeObject)
  | Array (a : TypeArray)
  | Union (u : TypeUnion)
  | Intersection (i : TypeIntersection)

/-- Modelled from the spec: `TypeInfo`, either `Native` (inline expression,
no standalone declaration) or `Defined` (a definition template plus the
generic arguments supplied at this use site). -/
inductive TypeInfo where
  | Native (n : NativeTypeInfo)
  | Defined (d : DefinedTypeInfo)

/-- Modelled from the spec: `NativeTypeInfo { ref: TypeExpr }`. -/
inductive NativeTypeInfo where
  | mk (r : TypeExpr)

/-- Modelled from the spec: `DefinedTypeInfo { def, generic_args }`.  In the
Rust crate `def` is a `&'static TypeDefinition`; in the model it is the
definition value itself. -/
inductive DefinedTypeInfo where
  | mk (def_ : TypeDefinition) (generic_args : List TypeExpr)

/-- Modelled from the spec: the declaration template `TypeDefinition`
(docs, namespace path, name, generic variables, body). -/
inductive TypeDefinition where
  | mk (docs : Option Docs) (path : List Ident) (name : Ident)
       (generic_vars : List Ident) (def_ : TypeExpr)

/-- Modelled from the spec: `TypeName { path, name, generic_args }`, used for
in-scope / generic-variable references. -/
inductive TypeName where
  | mk (path : List Ident) (name : Ident) (generic_args : List TypeExpr)

/-- Modelled from the spec: `TypeTuple { docs, elements }`. -/
inductive TypeTuple where
  | mk (docs : Option Docs) (elements : List TypeExpr)

/-- Modelled from the spec: `TypeObject { docs, fields }`. -/
inductive TypeObject where
  | mk (docs : Option Docs) (fields : List ObjectField)

/-- Modelled from the spec: `ObjectField { docs, name, optional, type }`.
The field name is a `TypeString` (field names render as quoted strings in
the output, per the doctest examples in `emit.rs`). -/
inductive ObjectField where
  | mk (docs : Option Docs) (name : TypeString) (optional : Bool)
       (type_ : TypeExpr)

/-- Modelled from the spec: `TypeArray { docs, item }`. -/
inductive TypeArray where
  | mk (docs : Option Docs) (item : TypeExpr)

/-- Modelled from the spec: `TypeUnion { docs, members }`; empty members
means the bottom type. -/
inductive TypeUnion where
  | mk (docs : Option Docs) (members : List TypeExpr)

/-- Modelled from the spec: `TypeIntersection { docs, members }`; empty
members means the top type. -/
inductive TypeIntersection where
  | mk (docs : Option Docs) (members : List TypeExpr)

end

/-- The `DefinitionFileOptions` struct from `emit.rs`: optional header text and
optional root-namespace name. -/
structure DefinitionFileOptions where
  header : Option String
  root_namespace : Option String
deriving DecidableEq, Repr

/-- Rust's `impl Default for DefinitionFileOptions` from `emit.rs`. -/
def DefinitionFileOptions.default : DefinitionFileOptions :=
  { header := some "// AUTO-GENERATED by typescript-type-def\n"
    root_namespace := some "types" }

/-- The `Stats` struct from `emit.rs`: the number of unique type definitions
produced. -/
structure Stats where
  type_definitions : Nat
deriving DecidableEq, Repr

/-- Accessor: the docs of a `TypeDefinition`. -/
def TypeDefinition.docs : TypeDefinition → Option Docs
  | .mk docs _ _ _ _ => docs

/-- Accessor: the namespace path of a `TypeDefinition`. -/
def TypeDefinition.path : TypeDefinition → List Ident
  | .mk _ path _ _ _ => path

/-- Accessor: the name of a `TypeDefinition`. -/
def TypeDefinition.name : TypeDefinition → Ident
  | .mk _ _ name _ _ => name

/-- Accessor: the generic variables of a `TypeDefinition`. -/
def TypeDefinition.generic_vars : TypeDefinition → List Ident
  | .mk _ _ _ generic_vars _ => generic_vars

/-- Accessor: the body expression of a `TypeDefinition`. -/
def TypeDefinition.defBody : TypeDefinition → TypeExpr
  | .mk _ _ _ _ def_ => def_

/-- One character of Rust's `{:?}` rendering of a string: the escapes
produced inside the quotes (quote, backslash, newline, carriage return,
tab, NUL as named escapes; other control characters as a hexadecimal
escape; everything else verbatim). -/
def rustEscapeChar (c : Char) : String :=
  if c = '"' then "\\\""
  else if c = '\\' then "\\\\"
  else if c = '\n' then "\\n"
  else if c = '\r' then "\\r"
  else if c = '\t' then "\\t"
  else if c = (Char.ofNat 0) then "\\0"
  else if c.toNat < 32 then
    "\\u\x7b" ++ (Nat.toDigits 16 c.toNat).asString ++ "\x7d"
  else String.singleton c

/-- Rust's `write!(w, "{:?}", value)` for a string value: the value as an
escaped, double-quoted string literal. -/
def rustDebugString (s : String) : String :=
  "\"" ++ String.join (s.data.map rustEscapeChar) ++ "\""

/-- A carriage return at the head of a reversed line accumulator (the
line's last character), dropped when the line ended in `\r\n`. -/
def dropCR : List Char → List Char
  | '\r' :: rest => rest
  | l => l

/-- Accumulator recursion for `rustLines`: `cur` holds the current line's
characters in reverse. -/
def rustLinesAux : List Char → List Char → List String
  | [], [] => []
  | [], cur => [String.mk cur.reverse]
  | '\n' :: cs, cur => String.mk (dropCR cur).reverse :: rustLinesAux cs []
  | c :: cs, cur => rustLinesAux cs (c :: cur)

/-- Rust's `str::lines()`: split at `\n` (also consuming a preceding `\r`),
with the final line ending optional and a trailing line terminator
producing no extra empty line. -/
def rustLines (s : String) : List String :=
  rustLinesAux s.data []

/-- Rust's `impl Emit for Docs` from `emit.rs`: a leading blank `writeln!`, then
a `/**` line, one ` * `-prefixed line per source line, and a ` */` line.
Each entry of the list is one `writeln!` call. -/
def Docs.emit (d : Docs) : List String :=
  ["\n", "/**" ++ "\n"]
    ++ (rustLines d.docs).map (fun line => " * " ++ line ++ "\n")
    ++ [" */" ++ "\n"]

/-- Rust's `impl Emit for Option<T>` from `emit.rs`: emit the content if present,
else nothing. -/
def optEmit (f : α → List String) : Option α → List String
  | some inner => f inner
  | none => []

/-- Rust's `impl Emit for Ident` from `emit.rs`: the identifier text. -/
def Ident.emit (i : Ident) : List String :=
  [i.name]

/-- Rust's `impl Emit for TypeString` from `emit.rs`: docs, then the value as an
escaped string literal. -/
def TypeString.emit (s : TypeString) : List String :=
  optEmit Docs.emit s.docs ++ [rustDebugString s.value]

/-- The `SepList` emitter from `emit.rs`, generically: emit the elements in order,
writing the separator before every element except the first (the `first`
flag in the Rust loop). -/
def SepList.emit (f : α → List String) (sep : String) : List α → List String
  | [] => []
  | x :: rest => f x ++ (rest.map (fun y => [sep] ++ f y)).flatten

/-- The path loop in the `Ref`/`Defined` arm and in `TypeName`: each path
segment followed by a `.`. -/
def pathEmit (path : List Ident) : List String :=
  (path.map (fun part => Ident.emit part ++ ["."])).flatten

mutual

/-- Rust's `impl Emit for TypeExpr` from `emit.rs`.  A `Ref` to a `Native` info
emits the wrapped expression; a `Ref` to a `Defined` info emits the
optional root-namespace prefix, the path segments each followed by `.`,
the name, and the generic arguments; the remaining variants delegate to
their node emitters. -/
def TypeExpr.emit (options : DefinitionFileOptions) : TypeExpr → List String
  | .Ref (.Native (.mk r)) => TypeExpr.emit options r
  | .Ref (.Defined (.mk (.mk _ path name _ _) generic_args)) =>
      (match options.root_namespace with
       | some root_namespace => [root_namespace ++ "."]
       | none => [])
        ++ pathEmit path
        ++ Ident.emit name
        ++ Generics.emit options generic_args
  | .Name type_name => TypeName.emit options type_name
  | .String type_string => TypeString.emit type_string
  | .Tuple type_tuple => TypeTuple.emit options type_tuple
  | .Object type_object => TypeObject.emit options type_object
  | .Array type_array => TypeArray.emit options type_array
  | .Union type_union => TypeUnion.emit options type_union
  | .Intersection type_intersection =>
      TypeIntersection.emit options type_intersection
termination_by structural e => e

/-- Rust's `impl Emit for TypeName` from `emit.rs`: path segments each followed
by `.`, the name, then the generic arguments. -/
def TypeName.emit (options : DefinitionFileOptions) : TypeName → List String
  | .mk path name generic_args =>
      pathEmit path ++ Ident.emit name ++ Generics.emit options generic_args
termination_by structural n => n

/-- The `Generics` emitter from `emit.rs`: nothing for an empty argument list, else
the arguments comma-joined inside angle brackets.  (The Rust `is_empty`
test and the inner `SepList` are fused into one match here so that the
recursion is structural; `Generics_eq_sepExprs` recovers the Rust
shape.) -/
def Generics.emit (options : DefinitionFileOptions) :
    List TypeExpr → List String
  | [] => []
  | x :: rest =>
      ["<"]
        ++ (TypeExpr.emit options x ++ sepExprsTail options "," rest)
        ++ [">"]
termination_by structural args => args

/-- The `SepList` emitter from `emit.rs` instantiated at `TypeExpr` elements (the
instantiation is untangled from the generic `SepList.emit` for the sake of
the recursion; `sepExprs_eq_SepList` proves them equal). -/
def sepExprs (options : DefinitionFileOptions) (sep : String) :
    List TypeExpr → List String
  | [] => []
  | x :: rest => TypeExpr.emit options x ++ sepExprsTail options sep rest
termination_by structural l => l

/-- The non-first elements of a `SepList` of `TypeExpr`: separator before
each element. -/
def sepExprsTail (options : DefinitionFileOptions) (sep : String) :
    List TypeExpr → List String
  | [] => []
  | y :: rest =>
      [sep] ++ TypeExpr.emit options y ++ sepExprsTail options sep rest
termination_by structural l => l

/-- Rust's `impl Emit for TypeTuple` from `emit.rs`: docs, `[`, comma-joined
elements, `]`. -/
def TypeTuple.emit (options : DefinitionFileOptions) : TypeTuple → List String
  | .mk docs elements =>
      optEmit Docs.emit docs
        ++ ["["] ++ sepExprs options "," elements ++ ["]"]
termination_by structural t => t

/-- Rust's `impl Emit for TypeObject` from `emit.rs`: docs, `{`, the fields in
order, `}`. -/
def TypeObject.emit (options : DefinitionFileOptions) :
    TypeObject → List String
  | .mk docs fields =>
      optEmit Docs.emit docs
        ++ ["\x7b"] ++ objectFieldsEmit options fields ++ ["\x7d"]
termination_by structural ob => ob

/-- The field loop of `impl Emit for TypeObject`: per field, docs, name,
`?` if optional, `:`, the field type, `;`. -/
def objectFieldsEmit (options : DefinitionFileOptions) :
    List ObjectField → List String
  | [] => []
  | .mk docs name optional type_ :: rest =>
      optEmit Docs.emit docs
        ++ TypeString.emit name
        ++ (if optional then ["?"] else [])
        ++ [":"]
        ++ TypeExpr.emit options type_
        ++ [";"]
        ++ objectFieldsEmit options rest
termination_by structural l => l

/-- Rust's `impl Emit for TypeArray` from `emit.rs`: docs, the item type
parenthesized, `[]`. -/
def TypeArray.emit (options : DefinitionFileOptions) : TypeArray → List String
  | .mk docs item =>
      optEmit Docs.emit docs
        ++ ["("] ++ TypeExpr.emit options item ++ [")[]"]
termination_by structural a => a

/-- Rust's `impl Emit for TypeUnion` from `emit.rs`: docs, then `never` when the
member list is empty, else the members pipe-joined inside parentheses. -/
def TypeUnion.emit (options : DefinitionFileOptions) : TypeUnion → List String
  | .mk docs members =>
      optEmit Docs.emit docs
        ++ (if members.isEmpty then ["never"]
            else ["("] ++ sepExprs options "|" members ++ [")"])
termination_by structural u => u

/-- Rust's `impl Emit for TypeIntersection` from `emit.rs`: docs, then `any` when
the member list is empty, else the members ampersand-joined inside
parentheses. -/
def TypeIntersection.emit (options : DefinitionFileOptions) :
    TypeIntersection → List String
  | .mk docs members =>
      optEmit Docs.emit docs
        ++ (if members.isEmpty then ["any"]
            else ["("] ++ sepExprs options "&" members ++ [")"])
termination_by structural it => it

end

mutual

/-- Structural equality on `TypeExpr`, used as the stand-in for definition
identity in the walker's visited set (see `TypeDefinition.beq`). -/
def TypeExpr.beq : TypeExpr → TypeExpr → Bool
  | .Ref a, .Ref b => TypeInfo.beq a b
  | .Name a, .Name b => TypeName.beq a b
  | .String a, .String b => a = b
  | .Tuple (.mk d1 l1), .Tuple (.mk d2 l2) => d1 = d2 && exprsBeq l1 l2
  | .Object (.mk d1 f1), .Object (.mk d2 f2) => d1 = d2 && fieldsBeq f1 f2
  | .Array (.mk d1 i1), .Array (.mk d2 i2) => d1 = d2 && TypeExpr.beq i1 i2
  | .Union (.mk d1 l1), .Union (.mk d2 l2) => d1 = d2 && exprsBeq l1 l2
  | .Intersection (.mk d1 l1), .Intersection (.mk d2 l2) =>
      d1 = d2 && exprsBeq l1 l2
  | _, _ => false
termination_by structural e => e

/-- Structural equality on `TypeInfo`. -/
def TypeInfo.beq : TypeInfo → TypeInfo → Bool
  | .Native (.mk r1), .Native (.mk r2) => TypeExpr.beq r1 r2
  | .Defined (.mk d1 a1), .Defined (.mk d2 a2) =>
      TypeDefinition.beq d1 d2 && exprsBeq a1 a2
  | _, _ => false
termination_by structural i => i

/-- Structural equality on `TypeDefinition`.  Modelled from the spec: in the
Rust crate the walker keys its visited set on the *identity* of the
definition (`&'static TypeDefinition` reference equality); the pure model
has no addresses, so structural equality of the definition value stands in
for identity (distinct definitions of a well-formed graph are structurally
distinct). -/
def TypeDefinition.beq : TypeDefinition → TypeDefinition → Bool
  | .mk do1 p1 n1 g1 b1, .mk do2 p2 n2 g2 b2 =>
      do1 = do2 && p1 = p2 && n1 = n2 && g1 = g2 && TypeExpr.beq b1 b2
termination_by structural d => d

/-- Structural equality on `TypeName`. -/
def TypeName.beq : TypeName → TypeName → Bool
  | .mk p1 n1 a1, .mk p2 n2 a2 => p1 = p2 && n1 = n2 && exprsBeq a1 a2
termination_by structural n => n

/-- Structural equality on lists of `TypeExpr`. -/
def exprsBeq : List TypeExpr → List TypeExpr → Bool
  | [], [] => true
  | x :: xs, y :: ys => TypeExpr.beq x y && exprsBeq xs ys
  | _, _ => false
termination_by structural l => l

/-- Structural equality on lists of `ObjectField`. -/
def fieldsBeq : List ObjectField → List ObjectField → Bool
  | [], [] => true
  | .mk d1 n1 o1 t1 :: xs, .mk d2 n2 o2 t2 :: ys =>
      d1 = d2 && n1 = n2 && o1 = o2 && TypeExpr.beq t1 t2 && fieldsBeq xs ys
  | _, _ => false
termination_by structural l => l

end

mutual

/-- Modelled from the spec: the walk of `iter_def_deps::IterDefDeps` (not in
the provided sources) over a `TypeInfo`, per spec §4.1.  A `Native` info
yields no closure node of its own but its wrapped expression is walked; a
`Defined` info has its generic arguments walked, and its definition —
unless already visited — is marked visited *before* its body is descended
into, and is yielded after the definitions its body reaches.  State is
`(visited, yielded)`. -/
def walkInfo (visited acc : List TypeDefinition) :
    TypeInfo → List TypeDefinition × List TypeDefinition
  | .Native (.mk r) => walkExpr visited acc r
  | .Defined (.mk (.mk docs path name generic_vars body) generic_args) =>
      let s := walkExprs visited acc generic_args
      let d := TypeDefinition.mk docs path name generic_vars body
      if (s.1).any (TypeDefinition.beq d) then s
      else
        let s2 := walkExpr (d :: s.1) s.2 body
        (s2.1, s2.2 ++ [d])
termination_by structural i => i

/-- Modelled from the spec: the walk of one `TypeExpr` — every nested
expression is walked for `Defined` references (spec §4.1 (iii)). -/
def walkExpr (visited acc : List TypeDefinition) :
    TypeExpr → List TypeDefinition × List TypeDefinition
  | .Ref info => walkInfo visited acc info
  | .Name (.mk _ _ generic_args) => walkExprs visited acc generic_args
  | .String _ => (visited, acc)
  | .Tuple (.mk _ elements) => walkExprs visited acc elements
  | .Object (.mk _ fields) => walkFields visited acc fields
  | .Array (.mk _ item) => walkExpr visited acc item
  | .Union (.mk _ members) => walkExprs visited acc members
  | .Intersection (.mk _ members) => walkExprs visited acc members
termination_by structural e => e

/-- Modelled from the spec: walking a list of expressions in order,
threading the `(visited, yielded)` state. -/
def walkExprs (visited acc : List TypeDefinition) :
    List TypeExpr → List TypeDefinition × List TypeDefinition
  | [] => (visited, acc)
  | e :: rest =>
      let s := walkExpr visited acc e
      walkExprs s.1 s.2 rest
termination_by structural l => l

/-- Modelled from the spec: walking the fields of an object — each field's
value type is walked (spec §4.1 (iii)). -/
def walkFields (visited acc : List TypeDefinition) :
    List ObjectField → List TypeDefinition × List TypeDefinition
  | [] => (visited, acc)
  | .mk _ _ _ type_ :: rest =>
      let s := walkExpr visited acc type_
      walkFields s.1 s.2 rest
termination_by structural l => l

end

/-- Modelled from the spec: `iter_def_deps::IterDefDeps::new(info)` as the
finite sequence of `TypeDefinition`s it yields — each reachable definition
exactly once, dependencies of a definition's body before the definition
itself. -/
def IterDefDeps (info : TypeInfo) : List TypeDefinition :=
  (walkInfo [] [] info).2

/-- The `Generics` emitter from `emit.rs` instantiated at `Ident` (used for the
generic-variable list of a declaration). -/
def GenericsIdent.emit (args : List Ident) : List String :=
  if args.isEmpty then []
  else ["<"] ++ SepList.emit Ident.emit "," args ++ [">"]

/-- One iteration of the loop in `EmitCtx::emit_type` from `emit.rs`: the
write calls for a single declaration — docs; when the path is non-empty,
one `export namespace` block named by the dot-joined path; the
`export type <name><generics>=<body>;` declaration; the closing brace when
a block was opened; a final newline. -/
def declEmit (options : DefinitionFileOptions) (d : TypeDefinition) :
    List String :=
  match d with
  | .mk docs path name generic_vars def_ =>
      optEmit Docs.emit docs
        ++ (if path.isEmpty then []
            else ["export namespace "]
              ++ SepList.emit Ident.emit "." path ++ ["\x7b"])
        ++ ["export type "]
        ++ Ident.emit name
        ++ GenericsIdent.emit generic_vars
        ++ ["="]
        ++ TypeExpr.emit options def_
        ++ [";"]
        ++ (if path.isEmpty then [] else ["\x7d"])
        ++ ["\n"]

/-- Rust's `EmitCtx::emit_type` from `emit.rs`: the loop over the walker's yield,
incrementing the stats counter once per definition and emitting its
declaration.  The counter starts at `0` per invocation — `EmitCtx::new`
initializes `stats.type_definitions = 0`. -/
def emit_type (options : DefinitionFileOptions) (info : TypeInfo) :
    List String × Stats :=
  (IterDefDeps info).foldl
    (fun acc d =>
      (acc.1 ++ declEmit options d, Stats.mk (acc.2.type_definitions + 1)))
    ([], Stats.mk 0)

/-- Rust's `write_definition_file` from `emit.rs` as a write trace: the header
`writeln!` when configured; the default-export and namespace-opening
`writeln!`s when a root namespace is configured; the declarations of
`emit_type`; the closing-brace `writeln!` when a root namespace is
configured.  Paired with the returned `Stats`. -/
def write_definition_file (info : TypeInfo)
    (options : DefinitionFileOptions) : List String × Stats :=
  let et := emit_type options info
  ((match options.header with
    | some header => [header ++ "\n"]
    | none => [])
    ++ (match options.root_namespace with
        | some root_namespace =>
            ["export default " ++ root_namespace ++ ";" ++ "\n",
             "export namespace " ++ root_namespace ++ "\x7b" ++ "\n"]
        | none => [])
    ++ et.1
    ++ (match options.root_namespace with
        | some _ => ["\x7d" ++ "\n"]
        | none => []),
   et.2)

/-- The outcome of feeding a write trace to a possibly-failing sink: the
text that ended up on the sink and the number of successful write calls,
with the error when a call failed. -/
inductive WriteResult (ε : Type) where
  | ok (out : String) (n : Nat)
  | error (e : ε) (out : String) (n : Nat)
deriving DecidableEq, Repr

/-- The `io::Write` sink: `oracle k` says whether the `k`-th write call of
the sink's lifetime fails, and with which error.  Running a trace appends
each written string to the sink text until the first failing call, at
which point the error is returned and nothing further is written — the
model of the `?` early return in `emit.rs`. -/
def runWrites (oracle : Nat → Option ε) :
    List String → String → Nat → WriteResult ε
  | [], out, n => .ok out n
  | w :: ws, out, n =>
      match oracle n with
      | some e => .error e out n
      | none => runWrites oracle ws (out ++ w) (n + 1)

/-- The text accumulated on an initially empty, never-failing sink by a
write trace. -/
def output (ws : List String) : String :=
  String.join ws

theorem output_nil : output [] = "" := rfl

theorem output_cons (w : String) (ws : List String) :
    output (w :: ws) = w ++ output ws := by
  apply String.ext
  simp [output]

theorem output_append (a b : List String) :
    output (a ++ b) = output a ++ output b := by
  apply String.ext
  simp [output]

theorem output_singleton (w : String) : output [w] = w := by
  apply String.ext
  simp [output]

theorem output_flatten (l : List (List String)) :
    output l.flatten = output (l.map output) := by
  induction l with
  | nil => rfl
  | cons a t ih =>
      rw [List.flatten_cons, output_append, ih, List.map_cons, output_cons]

theorem intercalate_go_eq (sep acc : String) (l : List String) :
    String.intercalate.go acc sep l
      = acc ++ output (l.map (fun b => sep ++ b)) := by
  induction l generalizing acc with
  | nil =>
      apply String.ext
      simp [String.intercalate.go, output]
  | cons b bs ih =>
      rw [String.intercalate.go, ih, List.map_cons, output_cons]
      simp [String.append_assoc]

theorem intercalate_cons_eq (sep a : String) (as : List String) :
    String.intercalate sep (a :: as)
      = a ++ output (as.map (fun b => sep ++ b)) := by
  rw [String.intercalate, intercalate_go_eq]

/-- The separated-list trace renders to the standard library's
`String.intercalate` of the element renderings. -/
theorem SepList.emit_output (f : α → List String) (sep : String)
    (xs : List α) :
    output (SepList.emit f sep xs)
      = String.intercalate sep (xs.map (fun x => output (f x))) := by
  cases xs with
  | nil => rfl
  | cons x rest =>
      rw [List.map_cons, intercalate_cons_eq]
      simp only [SepList.emit]
      rw [output_append, output_flatten]
      congr 1
      simp only [List.map_map]
      congr 1
      apply List.map_congr_left
      intro y _
      simp only [Function.comp_apply]
      rw [List.singleton_append, output_cons]

theorem sepExprsTail_eq (options : DefinitionFileOptions) (sep : String)
    (xs : List TypeExpr) :
    sepExprsTail options sep xs
      = (xs.map (fun y => [sep] ++ TypeExpr.emit options y)).flatten := by
  induction xs with
  | nil => simp [sepExprsTail]
  | cons y rest ih => simp [sepExprsTail, ih]

/-- The `TypeExpr` instantiation of the separated list used inside the
expression serializer agrees with the generic `SepList`. -/
theorem sepExprs_eq_SepList (options : DefinitionFileOptions) (sep : String)
    (xs : List TypeExpr) :
    sepExprs options sep xs
      = SepList.emit (TypeExpr.emit options) sep xs := by
  cases xs with
  | nil => simp [sepExprs, SepList.emit]
  | cons x rest => rw [sepExprs, SepList.emit, sepExprsTail_eq]

/-- The fused `Generics.emit` match has the shape of the Rust source: an
`is_empty` test guarding `<`, a comma-separated list, `>`. -/
theorem Generics_eq_sepExprs (options : DefinitionFileOptions)
    (args : List TypeExpr) :
    Generics.emit options args
      = if args.isEmpty then []
        else ["<"] ++ sepExprs options "," args ++ [">"] := by
  cases args <;> simp [Generics.emit, sepExprs]

theorem output_pathEmit (path : List Ident) :
    output (pathEmit path)
      = output (path.map (fun p => p.name ++ ".")) := by
  induction path with
  | nil => rfl
  | cons p t ih =>
      simp only [pathEmit, List.map_cons, List.flatten_cons] at *
      rw [output_append, ih, Ident.emit, output_append, output_singleton,
        output_singleton, String.append_assoc, output_cons]
      exact (String.append_assoc p.name "." _).symm

theorem output_sepIdents (sep : String) (l : List Ident) :
    output (SepList.emit Ident.emit sep l)
      = String.intercalate sep (l.map Ident.name) := by
  rw [SepList.emit_output]
  congr 1

theorem output_sepExprs (options : DefinitionFileOptions) (sep : String)
    (l : List TypeExpr) :
    output (sepExprs options sep l)
      = String.intercalate sep
          (l.map (fun a => output (TypeExpr.emit options a))) := by
  rw [sepExprs_eq_SepList, SepList.emit_output]

theorem output_Generics (options : DefinitionFileOptions)
    (args : List TypeExpr) :
    output (Generics.emit options args)
      = if args.isEmpty then ""
        else "<" ++ String.intercalate ","
            (args.map (fun a => output (TypeExpr.emit options a))) ++ ">" := by
  rw [Generics_eq_sepExprs]
  cases args with
  | nil => rfl
  | cons a t =>
      simp only [List.isEmpty_cons, if_false, Bool.false_eq_true]
      rw [output_append, output_append, output_singleton, output_singleton,
        output_sepExprs, String.append_assoc]

theorem output_GenericsIdent (args : List Ident) :
    output (GenericsIdent.emit args)
      = if args.isEmpty then ""
        else "<" ++ String.intercalate "," (args.map Ident.name) ++ ">" := by
  rw [GenericsIdent.emit]
  cases args with
  | nil => rfl
  | cons a t =>
      simp only [List.isEmpty_cons, if_false, Bool.false_eq_true]
      rw [output_append, output_append, output_singleton, output_singleton,
        output_sepIdents, String.append_assoc]

theorem emit_type_foldl (options : DefinitionFileOptions)
    (l : List TypeDefinition) (ws0 : List String) (k : Nat) :
    l.foldl
      (fun acc d =>
        (acc.1 ++ declEmit options d, Stats.mk (acc.2.type_definitions + 1)))
      (ws0, Stats.mk k)
      = (ws0 ++ (l.map (declEmit options)).flatten,
         Stats.mk (k + l.length)) := by
  induction l generalizing ws0 k with
  | nil => simp
  | cons d t ih =>
      rw [List.foldl_cons, ih]
      simp [List.append_assoc]
      omega

theorem emit_type_fst (options : DefinitionFileOptions) (info : TypeInfo) :
    (emit_type options info).1
      = ((IterDefDeps info).map (declEmit options)).flatten := by
  rw [emit_type, emit_type_foldl]
  simp

theorem emit_type_snd (options : DefinitionFileOptions) (info : TypeInfo) :
    (emit_type options info).2 = Stats.mk (IterDefDeps info).length := by
  rw [emit_type, emit_type_foldl]
  simp

/-- A sink that never fails. -/
def allOk {ε : Type} : Nat → Option ε := fun _ => none

theorem runWrites_allOk {ε : Type} (ws : List String) (out : String)
    (n : Nat) :
    runWrites (allOk (ε := ε)) ws out n
      = .ok (out ++ output ws) (n + ws.length) := by
  induction ws generalizing out n with
  | nil => simp [runWrites, output_nil, String.append_empty]
  | cons w t ih =>
      rw [runWrites]
      show runWrites allOk t (out ++ w) (n + 1) = _
      rw [ih, output_cons]
      simp [String.append_assoc]
      omega

/-- Characterization of a failing run: the failure happened at some index
`k` inside the trace, the returned error is exactly what the oracle
produced at the failing call, the sink text is the initial text plus the
first `k` trace entries — and nothing after them — and that text is a
prefix of what a complete run would have written. -/
theorem runWrites_error_spec {ε : Type} (oracle : Nat → Option ε)
    (ws : List String) (out0 : String) (n0 : Nat) (e : ε) (out : String)
    (n : Nat) (h : runWrites oracle ws out0 n0 = .error e out n) :
    ∃ k, n = n0 + k ∧ k < ws.length ∧ oracle n = some e
      ∧ out = out0 ++ output (List.take k ws)
      ∧ out0 ++ output ws = out ++ output (List.drop k ws) := by
  induction ws generalizing out0 n0 with
  | nil =>
      rw [runWrites] at h
      exact absurd h (by simp)
  | cons w t ih =>
      rw [runWrites] at h
      cases hc : oracle n0 with
      | some e0 =>
          rw [hc] at h
          simp only [WriteResult.error.injEq] at h
          obtain ⟨he, ho, hn⟩ := h
          subst he ho hn
          exact ⟨0, by omega, by simp, hc, by simp [output_nil, String.append_empty],
            by simp⟩
      | none =>
          rw [hc] at h
          obtain ⟨k, hk1, hk2, hk3, hk4, hk5⟩ := ih (out0 ++ w) (n0 + 1) h
          refine ⟨k + 1, by omega, by simp; omega, hk3, ?_, ?_⟩
          · rw [List.take_succ_cons, output_cons, ← String.append_assoc]
            exact hk4
          · rw [List.drop_succ_cons, output_cons, ← String.append_assoc]
            exact hk5

/-- The outcome of one full `write_definition_file` invocation against a
sink: on success the returned `Stats` together with the sink text and
write count; on failure the propagated error. -/
inductive RunResult (ε : Type) where
  | ok (stats : Stats) (out : String) (n : Nat)
  | error (e : ε) (out : String) (n : Nat)
deriving DecidableEq, Repr

/-- One full invocation of `write_definition_file` from `emit.rs` against
a sink whose call `oracle` failures are given by `oracle`, starting from
sink text `out0` after `n0` earlier write calls: run the write trace; on
success return `Ok(ctx.stats)` as the Rust function does, on failure
propagate the error. -/
def run_write_definition_file {ε : Type} (oracle : Nat → Option ε)
    (info : TypeInfo) (options : DefinitionFileOptions) (out0 : String)
    (n0 : Nat) : RunResult ε :=
  match runWrites oracle (write_definition_file info options).1 out0 n0 with
  | .ok out n => .ok (write_definition_file info options).2 out n
  | .error e out n => .error e out n

/-- The `Uuid` definition of the doctest in `emit.rs` (`export type
Uuid=string;`). -/
def exUuidDef : TypeDefinition :=
  .mk none [] (Ident.mk "Uuid") []
    (.Name (.mk [] (Ident.mk "string") []))

/-- The `User` definition of the doctest in `emit.rs` (an object with a
`Uuid`-typed `id` field and a string `name` field). -/
def exUserDef : TypeDefinition :=
  .mk none [] (Ident.mk "User") []
    (.Object (.mk none
      [.mk none (TypeString.mk none "id") false
         (.Ref (.Defined (.mk exUuidDef []))),
       .mk none (TypeString.mk none "name") false
         (.Name (.mk [] (Ident.mk "string") []))]))

/-- The root `TypeInfo` of the doctest in `emit.rs`: `User::INFO`. -/
def exRootInfo : TypeInfo := .Defined (.mk exUserDef [])

/-- A `Native` root info wrapping a bare name, yielding no declarations. -/
def exNativeInfo : TypeInfo :=
  .Native (.mk (.Name (.mk [] (Ident.mk "string") [])))

/-- C5: for every element list and fixed separator, the separated-list
rendering is the element renderings in input order with exactly one
separator between adjacent elements and none leading or trailing
(`String.intercalate`), empty for an empty list; and the very same rule
(the same `SepList`) is what the expression serializer instantiates for
its comma-, pipe- and ampersand-joined lists. -/
theorem sepList_rule {α : Type} (f : α → List String) (sep : String)
    (xs : List α) (options : DefinitionFileOptions) (sep2 : String)
    (ys : List TypeExpr) :
    output (SepList.emit f sep xs)
      = String.intercalate sep (xs.map (fun x => output (f x)))
      ∧ output (SepList.emit f sep []) = ""
      ∧ sepExprs options sep2 ys
          = SepList.emit (TypeExpr.emit options) sep2 ys :=
  ⟨SepList.emit_output f sep xs, rfl, sepExprs_eq_SepList options sep2 ys⟩

/-- C3 (per-declaration format): a declaration renders as its docs block,
then — exactly when the namespace path is non-empty — a single namespace
block whose literal name is the path segments dot-joined (not nested
per-segment blocks), containing `export type <Name><generic-vars>=<body>;`,
then the block's closing brace; an empty path declares directly with no
extra block; a trailing newline ends the declaration. -/
theorem declEmit_layout (options : DefinitionFileOptions)
    (docs : Option Docs) (path : List Ident) (name : Ident)
    (generic_vars : List Ident) (def_ : TypeExpr) :
    output (declEmit options (.mk docs path name generic_vars def_))
      = output (optEmit Docs.emit docs)
        ++ (if path.isEmpty then ""
            else "export namespace "
              ++ String.intercalate "." (path.map Ident.name) ++ "\x7b")
        ++ ("export type " ++ name.name
            ++ (if generic_vars.isEmpty then ""
                else "<"
                  ++ String.intercalate "," (generic_vars.map Ident.name)
                  ++ ">")
            ++ "=" ++ output (TypeExpr.emit options def_) ++ ";")
        ++ (if path.isEmpty then "" else "\x7d")
        ++ "\n" := by
  simp only [declEmit]
  cases hp : path.isEmpty <;>
    simp only [if_true, if_false, Bool.false_eq_true] <;>
    rw [output_append, output_append, output_append, output_append,
      output_append, output_append] <;>
    simp only [output_singleton, output_nil, Ident.emit,
      output_GenericsIdent, output_sepIdents, output_append,
      String.empty_append, String.append_empty, String.append_assoc]

/-- C4 (reference rendering): a `Ref` to a `Defined` info renders as the
root-namespace name followed by a dot when one is configured (nothing
otherwise), then each path segment followed by a dot, then the name, then
— only for a non-empty `generic_args` list — the recursively rendered
arguments comma-joined in angle brackets; an empty list contributes no
brackets. -/
theorem refDefined_layout (options : DefinitionFileOptions)
    (docs : Option Docs) (path : List Ident) (name : Ident)
    (generic_vars : List Ident) (def_ : TypeExpr)
    (generic_args : List TypeExpr) :
    output (TypeExpr.emit options
      (.Ref (.Defined (.mk (.mk docs path name generic_vars def_)
        generic_args))))
      = (match options.root_namespace with
         | some root_namespace => root_namespace ++ "."
         | none => "")
        ++ output (path.map (fun p => p.name ++ "."))
        ++ name.name
        ++ (if generic_args.isEmpty then ""
            else "<"
              ++ String.intercalate ","
                (generic_args.map (fun a => output (TypeExpr.emit options a)))
              ++ ">") := by
  rw [TypeExpr.emit]
  rw [output_append, output_append, output_append, output_pathEmit,
    Ident.emit, output_singleton, output_Generics]
  cases options.root_namespace <;>
    simp only [output_singleton, output_nil, String.empty_append,
      String.append_assoc]

/-- C6 counterexample: an empty `Union` carrying a docs block does not
render as exactly the keyword `never` — the docs block precedes it. -/
theorem unionEmpty_docs_counterexample :
    output (TypeUnion.emit DefinitionFileOptions.default
      (.mk (some (Docs.mk "d")) [])) ≠ "never" := by
  decide


/-- C6 amended: an empty `Union` renders as its docs block (empty when no
docs are attached) followed by exactly the keyword `never`, and an empty
`Intersection` likewise followed by exactly `any`; non-empty member lists
render as the docs block followed by the members joined by the respective
separator inside parentheses. -/
theorem unionIntersection_empty_layout (options : DefinitionFileOptions)
    (docs : Option Docs) (members : List TypeExpr) :
    output (TypeUnion.emit options (.mk docs members))
      = output (optEmit Docs.emit docs)
        ++ (if members.isEmpty then "never"
            else "(" ++ String.intercalate "|"
                (members.map (fun m => output (TypeExpr.emit options m)))
              ++ ")")
      ∧ output (TypeIntersection.emit options (.mk docs members))
        = output (optEmit Docs.emit docs)
          ++ (if members.isEmpty then "any"
              else "(" ++ String.intercalate "&"
                  (members.map (fun m => output (TypeExpr.emit options m)))
                ++ ")") := by
  refine ⟨?_, ?_⟩
  · rw [TypeUnion.emit, output_append]
    cases hm : members.isEmpty with
    | true => simp only [hm, if_true, output_singleton]
    | false =>
        simp only [hm, if_false, Bool.false_eq_true]
        rw [output_append, output_append, output_singleton,
          output_singleton, output_sepExprs, String.append_assoc]
  · rw [TypeIntersection.emit, output_append]
    cases hm : members.isEmpty with
    | true => simp only [hm, if_true, output_singleton]
    | false =>
        simp only [hm, if_false, Bool.false_eq_true]
        rw [output_append, output_append, output_singleton,
          output_singleton, output_sepExprs, String.append_assoc]

/-- C10: the `Ref` rendering of a `Defined` info ignores the referenced
definition's `docs` field entirely — replacing the docs (in particular,
dropping them) leaves the use-site rendering unchanged, so a definition's
documentation block can only ever be emitted by its own declaration. -/
theorem refDefined_ignores_docs (options : DefinitionFileOptions)
    (docs1 docs2 : Option Docs) (path : List Ident) (name : Ident)
    (generic_vars : List Ident) (def_ : TypeExpr)
    (generic_args : List TypeExpr) :
    TypeExpr.emit options
      (.Ref (.Defined (.mk (.mk docs1 path name generic_vars def_)
        generic_args)))
      = TypeExpr.emit options
        (.Ref (.Defined (.mk (.mk docs2 path name generic_vars def_)
          generic_args))) := by
  rw [TypeExpr.emit, TypeExpr.emit]

/-- C1: the file written by `write_definition_file` is exactly, in order:
the configured header (when configured); then, when a root namespace is
configured, the default-export statement naming it and the opening of its
namespace block; then one declaration per `TypeDefinition` yielded by the
closure walker; then the root namespace's closing brace when one was
opened.  Nothing else. -/
theorem write_definition_file_layout (info : TypeInfo)
    (options : DefinitionFileOptions) :
    output (write_definition_file info options).1
      = (match options.header with
         | some header => header ++ "\n"
         | none => "")
        ++ (match options.root_namespace with
            | some root_namespace =>
                "export default " ++ root_namespace ++ ";" ++ "\n"
                  ++ ("export namespace " ++ root_namespace ++ "\x7b"
                    ++ "\n")
            | none => "")
        ++ output ((IterDefDeps info).map
            (fun d => output (declEmit options d)))
        ++ (match options.root_namespace with
            | some _ => "\x7d" ++ "\n"
            | none => "") := by
  obtain ⟨hdr, rns⟩ := options
  simp only [write_definition_file]
  rw [output_append, output_append, output_append]
  have hm : output (emit_type ⟨hdr, rns⟩ info).1
      = output ((IterDefDeps info).map
          (fun d => output (declEmit ⟨hdr, rns⟩ d))) := by
    rw [emit_type_fst, output_flatten, List.map_map]
    rfl
  rw [hm]
  cases hdr <;> cases rns <;>
    simp only [output_cons, output_singleton, output_nil,
      String.empty_append, String.append_empty, String.append_assoc]

/-- C2: the returned `Stats` value counts exactly the declarations written:
the trace of `emit_type` is one `declEmit` block per walker-yielded
definition, and `type_definitions` — accumulated from zero within the
invocation — equals the number of yielded definitions. -/
theorem write_definition_file_stats (info : TypeInfo)
    (options : DefinitionFileOptions) :
    (write_definition_file info options).2.type_definitions
        = (IterDefDeps info).length
      ∧ (emit_type options info).1
          = ((IterDefDeps info).map (declEmit options)).flatten := by
  refine ⟨?_, emit_type_fst options info⟩
  show (emit_type options info).2.type_definitions = _
  rw [emit_type_snd]

/-- C7 counterexample: with the header `"foo"` configured (a header not
ending in a newline), the module text is `"foo\n"` followed by the rest —
the header is *not* followed by a blank line: the text that a blank line
would require, `"foo\n\n"`, is not a prefix of the output. -/
theorem header_blankline_counterexample :
    output (write_definition_file exNativeInfo
        { header := some "foo", root_namespace := none }).1
      = "foo" ++ "\n"
      ∧ (("foo" ++ "\n" ++ "\n").isPrefixOf
          (output (write_definition_file exNativeInfo
            { header := some "foo", root_namespace := none }).1)) = false := by
  refine ⟨by decide, by decide⟩

/-- C7 amended: when a header is configured, `write_definition_file` emits
the header text verbatim followed by a single newline as the very first
write, before any default-export statement, namespace opening, or
declaration; a blank line follows the header text exactly when the header
itself ends in a newline, as the default header does. -/
theorem header_first_layout (info : TypeInfo) (h : String)
    (rns : Option String) :
    (write_definition_file info
        { header := some h, root_namespace := rns }).1.take 1
      = [h ++ "\n"]
      ∧ output (write_definition_file info
          { header := some h, root_namespace := rns }).1
        = h ++ "\n"
          ++ output ((write_definition_file info
              { header := some h, root_namespace := rns }).1.drop 1) := by
  simp only [write_definition_file, List.singleton_append]
  constructor
  · rfl
  · simp only [List.cons_append, List.drop_succ_cons, List.drop_zero,
      output_cons, String.append_assoc]

/-- C8: if a write to the sink fails, `write_definition_file` halts at the
failing write — the sink holds exactly the prefix of the trace before the
failing call, that text is a prefix of the complete output (nothing is
rolled back), no later trace entry is written, and the I/O error returned
is exactly the one the sink produced. -/
theorem write_failure_halts {ε : Type} (oracle : Nat → Option ε)
    (info : TypeInfo) (options : DefinitionFileOptions) (e : ε)
    (out : String) (n : Nat)
    (h : run_write_definition_file oracle info options "" 0
      = .error e out n) :
    oracle n = some e
      ∧ out = output (((write_definition_file info options).1).take n)
      ∧ out ++ output (((write_definition_file info options).1).drop n)
          = output (write_definition_file info options).1 := by
  rw [run_write_definition_file] at h
  cases hr : runWrites oracle (write_definition_file info options).1 "" 0 with
  | ok out2 n2 => rw [hr] at h; exact absurd h (by simp)
  | error e2 out2 n2 =>
      rw [hr] at h
      simp only [RunResult.error.injEq] at h
      obtain ⟨he, ho, hn⟩ := h
      subst he ho hn
      obtain ⟨k, hk1, hk2, hk3, hk4, hk5⟩ :=
        runWrites_error_spec oracle _ "" 0 e2 out2 n2 hr
      have hkn : k = n2 := by omega
      subst hkn
      refine ⟨hk3, ?_, ?_⟩
      · rw [hk4, String.empty_append]
      · rw [String.empty_append] at hk5
        exact hk5.symm

/-- C9: `write_definition_file` is a deterministic function of the graph
and options and keeps no state across invocations — running it twice in
sequence against the same (never-failing) sink appends the identical byte
sequence the second time and returns the same declaration count. -/
theorem write_twice_identical {ε : Type} (info : TypeInfo)
    (options : DefinitionFileOptions) (s : Stats) (t : String) (k : Nat)
    (h : run_write_definition_file (allOk (ε := ε)) info options "" 0
      = .ok s t k) :
    run_write_definition_file (allOk (ε := ε)) info options t k
      = .ok s (t ++ t) (k + k) := by
  rw [run_write_definition_file, runWrites_allOk] at h
  simp only [RunResult.ok.injEq] at h
  obtain ⟨hs, ht, hk⟩ := h
  rw [run_write_definition_file, runWrites_allOk]
  rw [String.empty_append] at ht
  subst hs ht
  simp only [Nat.zero_add] at hk
  subst hk
  rfl

/-- A sink that fails the second write call (index 1) with error `42`. -/
def exOracle : Nat → Option Nat :=
  fun k => if k = 1 then some 42 else none

/-- The full module text of the doctest example under default options. -/
def exModuleText : String :=
  "// AUTO-GENERATED by typescript-type-def\n\nexport default types;\nexport namespace types\x7b\nexport type Uuid=string;\nexport type User=\x7b\"id\":types.Uuid;\"name\":string;\x7d;\n\x7d\n"

set_option maxRecDepth 10000 in
/-- Witness for `write_failure_halts`: against a sink failing its second
call with error `42`, emitting the doctest graph halts after the header
write with exactly that error and exactly the header on the sink. -/
theorem write_failure_halts_witness :
    exOracle 1 = some 42
      ∧ "// AUTO-GENERATED by typescript-type-def\n\n"
          = output (((write_definition_file exRootInfo
              DefinitionFileOptions.default).1).take 1)
      ∧ "// AUTO-GENERATED by typescript-type-def\n\n"
          ++ output (((write_definition_file exRootInfo
              DefinitionFileOptions.default).1).drop 1)
          = output (write_definition_file exRootInfo
              DefinitionFileOptions.default).1 :=
  write_failure_halts exOracle exRootInfo DefinitionFileOptions.default 42
    "// AUTO-GENERATED by typescript-type-def\n\n" 1 (by decide)

set_option maxRecDepth 10000 in
/-- Witness for `write_twice_identical`: emitting the doctest graph twice
in sequence on one sink appends the identical 26-write module text twice
and reports 2 type definitions both times. -/
theorem write_twice_identical_witness :
    run_write_definition_file (allOk (ε := Nat)) exRootInfo
        DefinitionFileOptions.default exModuleText 26
      = .ok (Stats.mk 2) (exModuleText ++ exModuleText) (26 + 26) :=
  write_twice_identical exRootInfo DefinitionFileOptions.default
    (Stats.mk 2) exModuleText 26 (by decide)

end TsDef
